import Mathlib

/-!
Shallow embedding of the geospatial tiling pipeline of
`deeposlandia/datasets/tanzania.py`, and verification of its stated
properties.

Python numbers are modelled exactly: `float` arithmetic as `ℚ` (the code
performs only ring operations and divisions on raster bounds), `int` as `ℤ`
or `ℕ`.  Python `int(x)` truncation toward zero is `ratTrunc`.  Fallible
Python code (raised exceptions) is modelled with `Except PyError`.  Strings
and paths are Lean `String`s; the Python string/path helpers used by the
code (`str.replace`, `os.path.join`, `os.path.basename`, `os.path.splitext`)
are modelled on `List Char`.

External collaborators (GDAL raster handles, geopandas clipping, cv2
polygon filling, PIL images) are abstracted: the sampling loop receives the
per-draw outcome (tile origin, clipped-label count, computed label
dictionary) as input, and the cv2 fill region is a parameter predicate.
-/

namespace Tanzania

/-- Python exception classes raised by the modelled code. -/
inductive PyError where
  | typeError : PyError
  | indexError : PyError
deriving DecidableEq

/-- Python `int(q)` on a float/rational: truncation toward zero.
For a rational in lowest terms this is `num.tdiv den`. -/
def ratTrunc (q : ℚ) : ℤ := q.num.tdiv q.den

/-- Core of `get_pixel` (tanzania.py:446-481) on one number:
`int(size * (coord - min_coord) / (max_coord - min_coord))`. -/
def get_pixel (coord minCoord maxCoord : ℚ) (size : ℤ) : ℤ :=
  ratTrunc ((size : ℚ) * (coord - minCoord) / (maxCoord - minCoord))

/-- Core of `get_geocoord` (tanzania.py:484-516) on one number:
`min_coord + coord * (max_coord - min_coord) / size` (true division). -/
def get_geocoord (coord : ℤ) (minCoord maxCoord : ℚ) (size : ℤ) : ℚ :=
  minCoord + (coord : ℚ) * (maxCoord - minCoord) / (size : ℚ)

/-- A Python number: `int` or `float`. -/
inductive PyNum where
  | int : ℤ → PyNum
  | float : ℚ → PyNum
deriving DecidableEq

/-- Numeric value of a Python number. -/
def PyNum.toRat : PyNum → ℚ
  | .int z => (z : ℚ)
  | .float q => q

/-- The shapes of values the coordinate-transform functions may receive:
a Python `int`, a `float`, a `list` of numbers, or anything else
(string, tuple, array, ...). -/
inductive PyVal where
  | pint : ℤ → PyVal
  | pfloat : ℚ → PyVal
  | plist : List PyNum → PyVal
  | other : PyVal
deriving DecidableEq

/-- Function `get_pixel` with its dynamic type dispatch (tanzania.py:471-481):
`isinstance(coord, list)` maps the elements, `isinstance(coord, float)`
transforms the scalar, anything else (a Python `int` included) raises
`TypeError`. -/
def getPixelPy (coord : PyVal) (minCoord maxCoord : ℚ) (size : ℤ) :
    Except PyError PyVal :=
  match coord with
  | .plist l =>
      .ok (.plist (l.map fun c => .int (get_pixel c.toRat minCoord maxCoord size)))
  | .pfloat q => .ok (.pint (get_pixel q minCoord maxCoord size))
  | _ => .error .typeError

/-- Function `get_geocoord` with its dynamic type dispatch (tanzania.py:509-516):
`isinstance(coord, list)` maps the elements, `isinstance(coord, int)`
transforms the scalar, anything else (a Python `float` included) raises
`TypeError`.  Python true division yields floats, so results are `float`. -/
def getGeocoordPy (coord : PyVal) (minCoord maxCoord : ℚ) (size : ℤ) :
    Except PyError PyVal :=
  match coord with
  | .plist l =>
      .ok (.plist (l.map fun c =>
        .float (minCoord + c.toRat * (maxCoord - minCoord) / (size : ℚ))))
  | .pint z => .ok (.pfloat (get_geocoord z minCoord maxCoord size))
  | _ => .error .typeError

/-! ### Python string and path helpers -/

/-- Fuel-indexed core of Python `str.replace`: scan left to right, replace
each non-overlapping occurrence of `p` by `r`.  The fuel (always at least
the length of the scanned list) makes the recursion structural. -/
def pyReplaceFuel (p r : List Char) : ℕ → List Char → List Char
  | _, [] => []
  | 0, s => s
  | fuel + 1, c :: s =>
      if p ≠ [] ∧ p.isPrefixOf (c :: s) then
        r ++ pyReplaceFuel p r fuel ((c :: s).drop p.length)
      else
        c :: pyReplaceFuel p r fuel s

/-- Python `s.replace(old, new)` on char lists (for nonempty `old`). -/
def pyReplace (p r s : List Char) : List Char :=
  pyReplaceFuel p r s.length s

/-- Python `s.replace(old, new)` on strings. -/
def pyReplaceStr (s old new : String) : String :=
  ⟨pyReplace old.data new.data s.data⟩

/-- Whether `p` occurs as a contiguous substring of `s` (Boolean check). -/
def containsSub (s p : List Char) : Bool :=
  (List.range (s.length + 1)).any fun i => p.isPrefixOf (s.drop i)

/-- Python `os.path.basename`: the part after the last `/`. -/
def pyBasename (s : String) : String :=
  ⟨(s.data.reverse.takeWhile (· != '/')).reverse⟩

/-- First component of Python `os.path.splitext` on a basename: cut at the
last dot, unless every character before that dot is itself a dot (leading
dots do not start an extension). -/
def pySplitextFst (s : String) : String :=
  if (s.data.reverse.takeWhile (· != '.')).length = s.data.reverse.length
  then s
  else if (s.data.reverse.drop
      ((s.data.reverse.takeWhile (· != '.')).length + 1)).any (· != '.') then
    ⟨(s.data.reverse.drop
      ((s.data.reverse.takeWhile (· != '.')).length + 1)).reverse⟩
  else s

/-- Python `os.path.join` on two components (POSIX): an absolute second
component resets the path; otherwise insert `/` unless the first component
is empty or already ends in `/`. -/
def pyJoin (a b : String) : String :=
  if b.data.head? = some '/' then b
  else if a.data = [] then b
  else if a.data.getLast? = some '/' then ⟨a.data ++ b.data⟩
  else ⟨a.data ++ '/' :: b.data⟩

/-! ### Tile filename generation and serialization
(`TanzaniaDataset._generate_preprocessed_filenames`, tanzania.py:71-103,
and `TanzaniaDataset._serialize`, tanzania.py:106-139) -/

/-- The `img_id_str` of `_generate_preprocessed_filenames`:
`"<size>_<size>_<x>_<y>"`, extended with `"_<suffix>"` when a suffix is
given. -/
def img_id_str (size x y : ℕ) (suffix : Option String) : String :=
  match suffix with
  | none => toString size ++ "_" ++ toString size ++ "_"
      ++ toString x ++ "_" ++ toString y
  | some suf => toString size ++ "_" ++ toString size ++ "_"
      ++ toString x ++ "_" ++ toString y ++ "_" ++ suf

/-- The `new_filename` of `_generate_preprocessed_filenames`:
`splitext(basename(image_filename))[0] + "_" + img_id_str + ".png"`. -/
def new_filename (size : ℕ) (imageFilename : String) (x y : ℕ)
    (suffix : Option String) : String :=
  pySplitextFst (pyBasename imageFilename) ++ "_" ++ img_id_str size x y suffix
    ++ ".png"

/-- Method `_generate_preprocessed_filenames` (tanzania.py:71-103): the image path
is `join(output_dir, "images", new_filename)`; the label path is the image
path with `"images"` replaced by `"labels"` via `str.replace` (which
replaces every occurrence). -/
def generate_preprocessed_filenames (size : ℕ)
    (imageFilename outputDir : String) (x y : ℕ) (suffix : Option String) :
    String × String :=
  let outImage := pyJoin (pyJoin outputDir "images")
    (new_filename size imageFilename x y suffix)
  (outImage, pyReplaceStr outImage "images" "labels")

/-- The dict returned by `_serialize` (tanzania.py:106-139).  The label
dictionary computed by `utils.build_labels` is carried as an opaque
association list. -/
structure TileRecord where
  raw_filename : String
  image_filename : String
  label_filename : String
  labels : List (ℕ × ℕ)
deriving DecidableEq

/-- Method `_serialize`: generate the two filenames and record them together with
the raw filename and the label dictionary (the PNG writes are I/O). -/
def serializeRecord (size : ℕ) (labelDict : List (ℕ × ℕ))
    (imageFilename outputDir : String) (x y : ℕ) (suffix : Option String) :
    TileRecord :=
  { raw_filename := imageFilename,
    image_filename :=
      (generate_preprocessed_filenames size imageFilename outputDir x y suffix).1,
    label_filename :=
      (generate_preprocessed_filenames size imageFilename outputDir x y suffix).2,
    labels := labelDict }

/-! ### The training sampling loop
(`TanzaniaDataset._preprocess_for_training`, tanzania.py:209-307) -/

/-- The per-iteration random outcome of the sampling loop: the drawn tile
origin `(x, y)`, the number of clipped label items `len(tile_items)`
returned by `extract_tile_items`, and the label dictionary computed for the
tile by `utils.build_labels`. -/
structure Draw where
  x : ℕ
  y : ℕ
  nbTileItems : ℕ
  labelDict : List (ℕ × ℕ)

/-- The mutable state of the sampling loop: `nb_attempts`,
`image_counter`, `empty_image_counter` and the accumulated
`result_dicts`. -/
structure SamplerState where
  nb_attempts : ℕ
  image_counter : ℕ
  empty_image_counter : ℕ
  result_dicts : List TileRecord
deriving DecidableEq

/-- Initial sampling state: all counters `0`, no records. -/
def initState : SamplerState := ⟨0, 0, 0, []⟩

/-- Fixed context of one `_preprocess_for_training` run. -/
structure SamplerConfig where
  image_size : ℕ
  image_filename : String
  output_dir : String

/-- One iteration body of the sampling loop (tanzania.py:244-303): if the
drawn tile has clipped label items, serialize the base tile (suffix `nw`)
and its three flips (`ne`, `sw`, `se`), all sharing the tile's label
dictionary, incrementing `image_counter` four times; otherwise serialize the
single base tile only while `empty_image_counter < 0.1 * nb_images`;
`nb_attempts` is incremented in every case. -/
def sampleStep (cfg : SamplerConfig) (nbImages : ℕ) (d : Draw)
    (s : SamplerState) : SamplerState :=
  let ser := fun suf => serializeRecord cfg.image_size d.labelDict
    cfg.image_filename cfg.output_dir d.x d.y (some suf)
  if 0 < d.nbTileItems then
    { s with
      result_dicts := s.result_dicts ++ [ser "nw", ser "ne", ser "sw", ser "se"],
      image_counter := s.image_counter + 4,
      nb_attempts := s.nb_attempts + 1 }
  else if (s.empty_image_counter : ℚ) < (1 / 10 : ℚ) * (nbImages : ℚ) then
    { s with
      result_dicts := s.result_dicts ++ [ser "nw"],
      image_counter := s.image_counter + 1,
      empty_image_counter := s.empty_image_counter + 1,
      nb_attempts := s.nb_attempts + 1 }
  else
    { s with nb_attempts := s.nb_attempts + 1 }

/-- The `while image_counter < nb_images and nb_attempts < 2 * nb_images`
loop, run with explicit fuel; each iteration consumes the draw at index
`nb_attempts`. -/
def sampleLoop (cfg : SamplerConfig) (nbImages : ℕ) (draws : ℕ → Draw) :
    ℕ → SamplerState → SamplerState
  | 0, s => s
  | fuel + 1, s =>
      if s.image_counter < nbImages ∧ s.nb_attempts < 2 * nbImages then
        sampleLoop cfg nbImages draws fuel
          (sampleStep cfg nbImages (draws s.nb_attempts) s)
      else s

/-- Method `_preprocess_for_training` restricted to its sampling loop: run the
loop from the initial state.  Fuel `2 * nb_images` is enough, since
`nb_attempts` grows by one per iteration and the guard requires
`nb_attempts < 2 * nb_images`. -/
def preprocess_for_training (cfg : SamplerConfig) (nbImages : ℕ)
    (draws : ℕ → Draw) : SamplerState :=
  sampleLoop cfg nbImages draws (2 * nbImages) initState

/-! ### Exhaustive tiling for inference
(`TanzaniaDataset._preprocess_for_inference`, tanzania.py:178-206, and
`TanzaniaDataset._preprocess_tile`, tanzania.py:142-175) -/

/-- Python function `range(0, stop, step)` for positive `step`, as a list. -/
def pyRange (stop step : ℕ) : List ℕ :=
  (List.range ((stop + step - 1) / step)).map (· * step)

/-- The record produced by `_preprocess_tile`: the `gdal.Translate` source
window origin `(x, y)` and the returned raw/image filenames (no labels). -/
structure InfTile where
  x : ℕ
  y : ℕ
  raw_filename : String
  image_filename : String
deriving DecidableEq

/-- Method `_preprocess_tile` (tanzania.py:142-175): crop the `image_size` square
window at `(x, y)` into the generated image path (no suffix, no label
file). -/
def preprocess_tile (size : ℕ) (imageFilename outputDir : String) (x y : ℕ) :
    InfTile :=
  { x := x, y := y, raw_filename := imageFilename,
    image_filename :=
      (generate_preprocessed_filenames size imageFilename outputDir x y none).1 }

/-- Method `_preprocess_for_inference` (tanzania.py:178-206): deterministically
tile the raster with `for x in range(0, width, image_size)` and
`for y in range(0, height, image_size)`. -/
def preprocess_for_inference (size : ℕ) (imageFilename outputDir : String)
    (w h : ℕ) : List InfTile :=
  (pyRange w size).flatMap fun x =>
    (pyRange h size).map fun y => preprocess_tile size imageFilename outputDir x y

/-! ### Label registry and mask rasterization
(`TanzaniaDataset.__init__`, tanzania.py:54-68, `TanzaniaDataset.load_mask`,
tanzania.py:367-405, and `extract_points_from_polygon`,
tanzania.py:408-443) -/

/-- One registry label as created by `Dataset.add_label`. -/
structure Label where
  id : ℕ
  name : String
  color : ℕ × ℕ × ℕ
  is_evaluate : Bool
deriving DecidableEq

/-- The fixed Tanzania label registry built in `TanzaniaDataset.__init__`
(tanzania.py:61-68). -/
def tanzaniaLabels : List Label :=
  [⟨0, "background", (0, 0, 0), true⟩,
   ⟨1, "complete", (50, 200, 50), true⟩,
   ⟨2, "incomplete", (200, 200, 50), true⟩,
   ⟨3, "foundation", (200, 50, 50), true⟩]

/-- Geographical features of a raster as returned by `get_image_features`
(tanzania.py:519-553). -/
structure RasterFeatures where
  west : ℚ
  south : ℚ
  east : ℚ
  north : ℚ
  srid : ℤ
  width : ℤ
  height : ℤ

/-- One clipped building label row: its `condition` string and the
exterior-ring coordinates of its (single-part) polygon geometry. -/
structure Building where
  condition : String
  geometry : List (ℚ × ℚ)

/-- Function `extract_points_from_polygon` (tanzania.py:408-443): convert the
exterior-ring geographic coordinates axis-wise through `get_pixel`, swap to
`(row, col)` order, and shift by the tile origin (`row -= min_y`,
`col -= min_x`). -/
def extract_points_from_polygon (p : List (ℚ × ℚ))
    (features : RasterFeatures) (min_x min_y : ℤ) : List (ℤ × ℤ) :=
  let xs := p.map fun c => get_pixel c.1 features.west features.east features.width
  let ys := p.map fun c => get_pixel c.2 features.north features.south features.height
  (xs.zip ys).map fun xy => (xy.2 - min_y, xy.1 - min_x)

/-- A tile mask: `image_size` rows of `image_size` label ids. -/
abbrev Mask := List (List ℕ)

/-- Array `np.zeros(shape=(image_size, image_size))`: the all-background mask. -/
def zeroMask (size : ℕ) : Mask :=
  List.replicate size (List.replicate size 0)

/-- Call `cv2.fillPoly(mask, [points], label_id)`: every pixel of the fill
region determined by the polygon points receives `label_id`, every other
pixel keeps its previous value.  The fill region itself is cv2's (an
external collaborator); it is abstracted by the `region` predicate. -/
def fillPoly (region : ℕ → ℕ → Bool) (mask : Mask) (labelId : ℕ) : Mask :=
  mask.mapIdx fun i row => row.mapIdx fun j v => if region i j then labelId else v

/-- Python `str.lower()` (ASCII lowering, as applicable to the dataset's
condition strings). -/
def pyLower (s : String) : String := ⟨s.data.map Char.toLower⟩

/-- The label-id lookup of `load_mask` (tanzania.py:402-403):
`[label["id"] for label in self.labels if label["name"] ==
row["condition"].lower()][0]`, i.e. the head of a filtered list — `none`
models the `IndexError` case of an empty comprehension. -/
def lookupLabelId (labels : List Label) (condition : String) : Option ℕ :=
  ((labels.filter fun l => l.name == pyLower condition).map Label.id).head?

/-- One iteration of the `load_mask` loop body (tanzania.py:398-404):
extract the building's pixel points, look up its label id (raising
`IndexError` when the lowercased condition matches no registry name) and
fill the polygon region with that id; a previously raised error
propagates. -/
def loadMaskStep (region : List (ℤ × ℤ) → ℕ → ℕ → Bool)
    (labels : List Label) (features : RasterFeatures) (min_x min_y : ℤ)
    (acc : Except PyError Mask) (b : Building) : Except PyError Mask :=
  match acc with
  | .error e => .error e
  | .ok mask =>
      match lookupLabelId labels b.condition with
      | none => .error .indexError
      | some lid =>
          .ok (fillPoly
            (region (extract_points_from_polygon b.geometry features min_x min_y))
            mask lid)

/-- Method `load_mask` (tanzania.py:367-405): start from the all-zero mask and
apply the loop body to each building row in order. -/
def load_mask (region : List (ℤ × ℤ) → ℕ → ℕ → Bool) (labels : List Label)
    (size : ℕ) (buildings : List Building) (features : RasterFeatures)
    (min_x min_y : ℤ) : Except PyError Mask :=
  buildings.foldl (loadMaskStep region labels features min_x min_y)
    (.ok (zeroMask size))

/-! ## Theorems -/

theorem ratTrunc_intCast (z : ℤ) : ratTrunc (z : ℚ) = z := by
  simp [ratTrunc, Rat.num_intCast, Rat.den_intCast]

theorem round_trip_exact (p size : ℤ) (minCoord maxCoord : ℚ)
    (hsize : 0 < size) (hlt : minCoord < maxCoord) :
    get_pixel (get_geocoord p minCoord maxCoord size) minCoord maxCoord size
      = p := by
  have hs : (size : ℚ) ≠ 0 := by
    exact_mod_cast hsize.ne'
  have hmm : maxCoord - minCoord ≠ 0 := sub_ne_zero.mpr hlt.ne'
  have : (size : ℚ) * (get_geocoord p minCoord maxCoord size - minCoord) /
      (maxCoord - minCoord) = (p : ℚ) := by
    unfold get_geocoord
    field_simp
    ring
  unfold get_pixel
  rw [this, ratTrunc_intCast]

/-- C1: For every integer pixel coordinate `p` with `0 ≤ p ≤ size`, raster
bounds `min_coord < max_coord` and `size > 0`, composing the two coordinate
transforms as `get_pixel (get_geocoord p min max size) min max size` yields a
value equal to `p` up to a truncation error of at most 1 (in fact the round
trip is exact over exact rational arithmetic). -/
theorem c1_round_trip (p size : ℤ) (minCoord maxCoord : ℚ)
    (hp0 : 0 ≤ p) (hps : p ≤ size) (hsize : 0 < size)
    (hlt : minCoord < maxCoord) :
    (get_pixel (get_geocoord p minCoord maxCoord size) minCoord maxCoord size
      - p).natAbs ≤ 1 := by
  rw [round_trip_exact p size minCoord maxCoord hsize hlt]
  simp

/-- Witness for C1 at `p = 3`, `size = 10`, bounds `(0, 1)`. -/
theorem c1_round_trip_witness :
    (0 : ℤ) ≤ 3 ∧ (3 : ℤ) ≤ 10 ∧ (0 : ℤ) < 10 ∧ (0 : ℚ) < 1 ∧
    (get_pixel (get_geocoord 3 0 1 10) 0 1 10 - 3).natAbs ≤ 1 :=
  ⟨by norm_num, by norm_num, by norm_num, by norm_num,
    c1_round_trip 3 10 0 1 (by norm_num) (by norm_num) (by norm_num)
      (by norm_num)⟩

/-- C6 counterexample: the claim says both integer and floating-point
scalars are accepted as single numbers by each transform function; in fact
`get_pixel` raises `TypeError` on the `int` scalar `0` and `get_geocoord`
raises `TypeError` on the `float` scalar `0.0`. -/
theorem c6_counterexample :
    getPixelPy (.pint 0) 0 1 1 = .error .typeError ∧
    getGeocoordPy (.pfloat 0) 0 1 1 = .error .typeError :=
  ⟨rfl, rfl⟩

/-- C6 amended: each transform function accepts a Python `list` of numbers
(transforming it elementwise) and exactly one scalar type — `get_pixel`
accepts a `float` scalar but raises `TypeError` on an `int` scalar, while
`get_geocoord` accepts an `int` scalar but raises `TypeError` on a `float`
scalar — and any other input shape raises a `TypeError` in both. -/
theorem c6_amended_dispatch (minCoord maxCoord : ℚ) (size : ℤ) :
    (∀ l : List PyNum,
      getPixelPy (.plist l) minCoord maxCoord size =
        .ok (.plist (l.map fun c =>
          .int (get_pixel c.toRat minCoord maxCoord size))) ∧
      getGeocoordPy (.plist l) minCoord maxCoord size =
        .ok (.plist (l.map fun c =>
          .float (minCoord + c.toRat * (maxCoord - minCoord) / (size : ℚ))))) ∧
    (∀ q : ℚ,
      getPixelPy (.pfloat q) minCoord maxCoord size =
        .ok (.pint (get_pixel q minCoord maxCoord size)) ∧
      getGeocoordPy (.pfloat q) minCoord maxCoord size = .error .typeError) ∧
    (∀ z : ℤ,
      getGeocoordPy (.pint z) minCoord maxCoord size =
        .ok (.pfloat (get_geocoord z minCoord maxCoord size)) ∧
      getPixelPy (.pint z) minCoord maxCoord size = .error .typeError) ∧
    (getPixelPy .other minCoord maxCoord size = .error .typeError ∧
      getGeocoordPy .other minCoord maxCoord size = .error .typeError) :=
  ⟨fun _ => ⟨rfl, rfl⟩, fun _ => ⟨rfl, rfl⟩, fun _ => ⟨rfl, rfl⟩, rfl, rfl⟩

theorem sampleStep_attempts (cfg : SamplerConfig) (n : ℕ) (d : Draw)
    (s : SamplerState) :
    (sampleStep cfg n d s).nb_attempts = s.nb_attempts + 1 := by
  unfold sampleStep
  split_ifs <;> rfl

theorem sampleStep_counter_le (cfg : SamplerConfig) (n : ℕ) (d : Draw)
    (s : SamplerState) :
    (sampleStep cfg n d s).image_counter ≤ s.image_counter + 4 := by
  unfold sampleStep
  split_ifs <;> simp

theorem sampleLoop_attempts_le (cfg : SamplerConfig) (n : ℕ) (draws : ℕ → Draw) :
    ∀ fuel s, (sampleLoop cfg n draws fuel s).nb_attempts ≤ s.nb_attempts + fuel := by
  intro fuel
  induction fuel with
  | zero => intro s; simp [sampleLoop]
  | succ f ih =>
      intro s
      rw [sampleLoop]
      split_ifs with h
      · have := ih (sampleStep cfg n (draws s.nb_attempts) s)
        rw [sampleStep_attempts] at this
        omega
      · omega

theorem sampleLoop_guard_false (cfg : SamplerConfig) (n : ℕ) (draws : ℕ → Draw) :
    ∀ fuel s, 2 * n ≤ s.nb_attempts + fuel →
      ¬((sampleLoop cfg n draws fuel s).image_counter < n ∧
        (sampleLoop cfg n draws fuel s).nb_attempts < 2 * n) := by
  intro fuel
  induction fuel with
  | zero =>
      intro s hs
      simp only [sampleLoop]
      omega
  | succ f ih =>
      intro s hs
      rw [sampleLoop]
      split_ifs with h
      · exact ih _ (by rw [sampleStep_attempts]; omega)
      · exact h

theorem sampleLoop_fuel_succ (cfg : SamplerConfig) (n : ℕ) (draws : ℕ → Draw) :
    ∀ fuel s, 2 * n ≤ s.nb_attempts + fuel →
      sampleLoop cfg n draws (fuel + 1) s = sampleLoop cfg n draws fuel s := by
  intro fuel
  induction fuel with
  | zero =>
      intro s hs
      rw [sampleLoop, sampleLoop]
      split_ifs with h
      · omega
      · rfl
  | succ f ih =>
      intro s hs
      conv_lhs => rw [sampleLoop]
      conv_rhs => rw [sampleLoop]
      split_ifs with h
      · exact ih _ (by rw [sampleStep_attempts]; omega)
      · rfl

/-- C3: For every target count `n`, the training sampling loop terminates:
its guard is `image_counter < n ∧ nb_attempts < 2 * n`, every iteration
increments `nb_attempts` by exactly 1 (via `sampleStep`), the final number
of attempts — which counts the executed loop bodies — is at most `2 * n`,
the guard is false at the final state, and granting the loop any extra fuel
beyond `2 * n` iterations changes nothing. -/
theorem c3_termination (cfg : SamplerConfig) (n : ℕ) (draws : ℕ → Draw) :
    (∀ d s, (sampleStep cfg n d s).nb_attempts = s.nb_attempts + 1) ∧
    (preprocess_for_training cfg n draws).nb_attempts ≤ 2 * n ∧
    ¬((preprocess_for_training cfg n draws).image_counter < n ∧
      (preprocess_for_training cfg n draws).nb_attempts < 2 * n) ∧
    (∀ extra, sampleLoop cfg n draws (2 * n + extra) initState =
      preprocess_for_training cfg n draws) := by
  refine ⟨sampleStep_attempts cfg n, ?_, ?_, ?_⟩
  · have := sampleLoop_attempts_le cfg n draws (2 * n) initState
    simpa [preprocess_for_training, initState] using this
  · exact sampleLoop_guard_false cfg n draws (2 * n) initState (by simp [initState])
  · intro extra
    induction extra with
    | zero => rfl
    | succ e ih =>
        have : 2 * n + (e + 1) = (2 * n + e) + 1 := rfl
        rw [this, sampleLoop_fuel_succ cfg n draws (2 * n + e) initState
          (by simp [initState]), ih]

/-- C4 counterexample: with target `n = 2` and every draw containing a
building, the loop exits after a single iteration with `nb_attempts = 1 <
2 * 2` (the budget is not exhausted) yet `image_counter = 4 ≠ 2`: the
accepted counter jumps by 4 per non-empty tile and overshoots `n`, so the
success case does not imply `image_counter = n`. -/
theorem c4_counterexample :
    (preprocess_for_training ⟨4, "img.tif", "out"⟩ 2
      (fun _ => ⟨0, 0, 1, []⟩)).nb_attempts < 2 * 2 ∧
    (preprocess_for_training ⟨4, "img.tif", "out"⟩ 2
      (fun _ => ⟨0, 0, 1, []⟩)).image_counter ≠ 2 := by
  constructor
  · decide
  · decide

/-- C4 amended: for every run of the training sampling loop with target
`n`, when the loop exits without exhausting the attempt budget
(`nb_attempts < 2 * n` at exit), the accepted counter `image_counter` is at
least `n` — but may overshoot up to `n + 3`, because a non-empty tile
increments it by 4 — rather than being exactly `n`. -/
theorem c4_amended_counter_bounds (cfg : SamplerConfig) (n : ℕ)
    (draws : ℕ → Draw)
    (h : (preprocess_for_training cfg n draws).nb_attempts < 2 * n) :
    n ≤ (preprocess_for_training cfg n draws).image_counter ∧
    (preprocess_for_training cfg n draws).image_counter ≤ n + 3 := by
  constructor
  · have hg := sampleLoop_guard_false cfg n draws (2 * n) initState
      (by simp [initState])
    rw [show sampleLoop cfg n draws (2 * n) initState =
      preprocess_for_training cfg n draws from rfl] at hg
    omega
  · have key : ∀ fuel s, s.image_counter ≤ n + 3 →
        (sampleLoop cfg n draws fuel s).image_counter ≤ n + 3 := by
      intro fuel
      induction fuel with
      | zero => intro s hs; simpa [sampleLoop] using hs
      | succ f ih =>
          intro s hs
          rw [sampleLoop]
          split_ifs with hguard
          · exact ih _ (by
              have := sampleStep_counter_le cfg n (draws s.nb_attempts) s
              omega)
          · exact hs
    exact key (2 * n) initState (by simp [initState])

/-- Witness for C4 amended at `n = 2` with all draws non-empty. -/
theorem c4_amended_witness :
    (preprocess_for_training ⟨4, "img.tif", "out"⟩ 2
      (fun _ => ⟨0, 0, 1, []⟩)).nb_attempts < 2 * 2 ∧
    (2 ≤ (preprocess_for_training ⟨4, "img.tif", "out"⟩ 2
      (fun _ => ⟨0, 0, 1, []⟩)).image_counter ∧
     (preprocess_for_training ⟨4, "img.tif", "out"⟩ 2
      (fun _ => ⟨0, 0, 1, []⟩)).image_counter ≤ 2 + 3) :=
  ⟨by decide,
    c4_amended_counter_bounds ⟨4, "img.tif", "out"⟩ 2 (fun _ => ⟨0, 0, 1, []⟩)
      (by decide)⟩

theorem empty_quota_iff (e : ℕ) :
    ((e : ℚ) < (1 / 10 : ℚ) * ((10 : ℕ) : ℚ)) ↔ e = 0 := by
  rw [show (1 / 10 : ℚ) * ((10 : ℕ) : ℚ) = 1 by norm_num]
  constructor
  · intro h
    exact_mod_cast Nat.lt_one_iff.mp (by exact_mod_cast h)
  · intro h
    subst h
    norm_num

theorem c2_loop_inv (cfg : SamplerConfig) (draws : ℕ → Draw)
    (hd : ∀ i, (draws i).nbTileItems = 0) :
    ∀ fuel s, s.empty_image_counter = s.result_dicts.length →
      s.result_dicts.length ≤ 1 →
      (sampleLoop cfg 10 draws fuel s).result_dicts.length ≤ 1 := by
  intro fuel
  induction fuel with
  | zero =>
      intro s _ h2
      simpa [sampleLoop] using h2
  | succ f ih =>
      intro s h1 h2
      rw [sampleLoop]
      split_ifs with hg
      · have hd0 : (draws s.nb_attempts).nbTileItems = 0 := hd s.nb_attempts
        unfold sampleStep
        rw [hd0]
        simp only [lt_irrefl, if_false]
        split_ifs with hquota
        · have he : s.empty_image_counter = 0 := (empty_quota_iff _).mp hquota
          have hlen : s.result_dicts.length = 0 := by omega
          apply ih
          · simp [he, hlen]
          · simp [hlen]
        · exact ih _ h1 h2
      · exact h2

/-- C2: For every run of the training sampling loop with target `n = 10`
in which every drawn tile has an empty clipped label set, the loop performs
at most 20 attempts and appends at most 1 tile record: an empty tile is
accepted only while `empty_image_counter < 0.1 * nb_images` under
strict-less-than, and with `n = 10` that quota admits a single record. -/
theorem c2_empty_quota (cfg : SamplerConfig) (draws : ℕ → Draw)
    (hd : ∀ i, (draws i).nbTileItems = 0) :
    (preprocess_for_training cfg 10 draws).nb_attempts ≤ 20 ∧
    (preprocess_for_training cfg 10 draws).result_dicts.length ≤ 1 := by
  constructor
  · have h := sampleLoop_attempts_le cfg 10 draws (2 * 10) initState
    simp only [initState] at h
    exact le_trans h (by norm_num)
  · exact c2_loop_inv cfg draws hd (2 * 10) initState rfl (by simp [initState])

/-- Witness for C2: the constant all-background draw stream. -/
theorem c2_empty_quota_witness :
    (∀ i : ℕ, ((fun _ : ℕ => (⟨0, 0, 0, []⟩ : Draw)) i).nbTileItems = 0) ∧
    ((preprocess_for_training ⟨4, "img.tif", "out"⟩ 10
        (fun _ : ℕ => (⟨0, 0, 0, []⟩ : Draw))).nb_attempts ≤ 20 ∧
      (preprocess_for_training ⟨4, "img.tif", "out"⟩ 10
        (fun _ : ℕ => (⟨0, 0, 0, []⟩ : Draw))).result_dicts.length ≤ 1) :=
  ⟨fun _ => rfl,
    c2_empty_quota ⟨4, "img.tif", "out"⟩ (fun _ : ℕ => (⟨0, 0, 0, []⟩ : Draw))
      (fun _ => rfl)⟩

theorem lt_ceilDiv_iff (i stop step : ℕ) (hs : 0 < step) :
    i < (stop + step - 1) / step ↔ i * step < stop := by
  rw [Nat.lt_iff_add_one_le, Nat.le_div_iff_mul_le hs, add_mul, one_mul]
  omega

theorem pyRange_mem (stop step v : ℕ) (hs : 0 < step) :
    v ∈ pyRange stop step ↔ ∃ i, v = i * step ∧ v < stop := by
  unfold pyRange
  simp only [List.mem_map, List.mem_range]
  constructor
  · rintro ⟨i, hi, rfl⟩
    exact ⟨i, rfl, (lt_ceilDiv_iff i stop step hs).mp hi⟩
  · rintro ⟨i, rfl, hv⟩
    exact ⟨i, (lt_ceilDiv_iff i stop step hs).mpr hv, rfl⟩

/-- C7: In exhaustive (inference) mode on a raster of pixel size `100×100`
with tile size `50`, the populator emits exactly 4 tile records, one per
grid cell, with pixel origins `(0,0), (0,50), (50,0), (50,50)`; and in
general the grid iterates both axes from `0` with step equal to the tile
size: the emitted origins are exactly the pairs `(i*s, j*s)` lying inside
the raster. -/
theorem c7_exhaustive_grid (f o : String) :
    ((preprocess_for_inference 50 f o 100 100).map fun t => (t.x, t.y)) =
      [(0, 0), (0, 50), (50, 0), (50, 50)] ∧
    (preprocess_for_inference 50 f o 100 100).length = 4 ∧
    (∀ w h s, 0 < s → ∀ xy : ℕ × ℕ,
      (xy ∈ (preprocess_for_inference s f o w h).map fun t => (t.x, t.y)) ↔
        ∃ i j, xy = (i * s, j * s) ∧ i * s < w ∧ j * s < h) := by
  refine ⟨rfl, rfl, ?_⟩
  intro w h s hs xy
  constructor
  · intro hxy
    simp only [List.mem_map] at hxy
    obtain ⟨t, ht, rfl⟩ := hxy
    simp only [preprocess_for_inference, List.mem_flatMap, List.mem_map] at ht
    obtain ⟨x, hx, y, hy, rfl⟩ := ht
    obtain ⟨i, rfl, hiw⟩ := (pyRange_mem w s x hs).mp hx
    obtain ⟨j, rfl, hjh⟩ := (pyRange_mem h s y hs).mp hy
    exact ⟨i, j, rfl, hiw, hjh⟩
  · rintro ⟨i, j, rfl, hiw, hjh⟩
    simp only [List.mem_map, preprocess_for_inference, List.mem_flatMap]
    exact ⟨preprocess_tile s f o (i * s) (j * s),
      ⟨i * s, (pyRange_mem w s _ hs).mpr ⟨i, rfl, hiw⟩,
        j * s, (pyRange_mem h s _ hs).mpr ⟨j, rfl, hjh⟩, rfl⟩,
      rfl⟩

/-- Witness for C7: origin `(50, 50)` is emitted for the `100×100` raster
at tile size `50`. -/
theorem c7_exhaustive_grid_witness :
    (0 : ℕ) < 50 ∧
    ((50, 50) : ℕ × ℕ) ∈
      ((preprocess_for_inference 50 "img.tif" "out" 100 100).map
        fun t => (t.x, t.y)) :=
  ⟨by norm_num,
    ((c7_exhaustive_grid "img.tif" "out").2.2 100 100 50 (by norm_num)
      (50, 50)).mpr ⟨1, 1, by norm_num, by norm_num, by norm_num⟩⟩

theorem str_data_append (a b : String) : (a ++ b).data = a.data ++ b.data := rfl

theorem head?_append_cons (a : List Char) (c : Char) (r1 r2 : List Char) :
    (a ++ c :: r1).head? = (a ++ c :: r2).head? := by
  cases a <;> rfl

theorem pyJoin_data_pair (A b1 b2 : String)
    (hh : b1.data.head? = b2.data.head?) :
    ∃ P, (pyJoin A b1).data = P ++ b1.data ∧
      (pyJoin A b2).data = P ++ b2.data := by
  unfold pyJoin
  rw [hh]
  split_ifs with h1 h2 h3
  · exact ⟨[], rfl, rfl⟩
  · exact ⟨[], rfl, rfl⟩
  · exact ⟨A.data, rfl, rfl⟩
  · exact ⟨A.data ++ ['/'], by simp, by simp⟩

theorem img_id_str_some (size x y : ℕ) (suf : String) :
    img_id_str size x y (some suf) = img_id_str size x y none ++ "_" ++ suf :=
  rfl

theorem new_filename_data (size : ℕ) (f : String) (x y : ℕ) (suf : String) :
    (new_filename size f x y (some suf)).data =
      ((pySplitextFst (pyBasename f)).data ++ "_".data
          ++ (img_id_str size x y none).data ++ "_".data)
        ++ (suf.data ++ ".png".data) := by
  rw [new_filename, img_id_str_some]
  simp only [str_data_append, List.append_assoc]

theorem new_filename_head (size : ℕ) (f : String) (x y : ℕ)
    (s1 s2 : Option String) :
    (new_filename size f x y s1).data.head? =
      (new_filename size f x y s2).data.head? := by
  have hu : ("_" : String).data = ['_'] := rfl
  have key : ∀ s : Option String, (new_filename size f x y s).data =
      (pySplitextFst (pyBasename f)).data
        ++ '_' :: ((img_id_str size x y s).data ++ ".png".data) := by
    intro s
    rw [new_filename]
    simp only [str_data_append, List.append_assoc, hu]
    rfl
  rw [key s1, key s2]
  exact head?_append_cons _ _ _ _

theorem gen_image_inj_suffix (size : ℕ) (f odir : String) (x y : ℕ)
    (sa sb : String)
    (h : (generate_preprocessed_filenames size f odir x y (some sa)).1 =
      (generate_preprocessed_filenames size f odir x y (some sb)).1) :
    sa = sb := by
  have h' : pyJoin (pyJoin odir "images") (new_filename size f x y (some sa)) =
      pyJoin (pyJoin odir "images") (new_filename size f x y (some sb)) := h
  obtain ⟨P, hPa, hPb⟩ := pyJoin_data_pair (pyJoin odir "images")
    (new_filename size f x y (some sa)) (new_filename size f x y (some sb))
    (new_filename_head size f x y (some sa) (some sb))
  have hd := congrArg String.data h'
  rw [hPa, hPb, new_filename_data, new_filename_data] at hd
  exact String.ext
    (List.append_cancel_right
      (List.append_cancel_left (List.append_cancel_left hd)))

/-- C5: For every sampling-loop iteration whose drawn tile has a non-empty
clipped label set, exactly 4 tile records are appended: the record count
and `image_counter` both grow by 4, the four new records all carry the
tile's label dictionary, their image filenames carry the four orientation
suffixes `nw`, `ne`, `sw`, `se` respectively, and those four filenames are
pairwise distinct. -/
theorem c5_four_variants (cfg : SamplerConfig) (nbImages : ℕ) (d : Draw)
    (s : SamplerState) (hd : 0 < d.nbTileItems) :
    (sampleStep cfg nbImages d s).result_dicts.length
        = s.result_dicts.length + 4 ∧
    (sampleStep cfg nbImages d s).image_counter = s.image_counter + 4 ∧
    ((sampleStep cfg nbImages d s).result_dicts.drop
        s.result_dicts.length).map TileRecord.labels
      = [d.labelDict, d.labelDict, d.labelDict, d.labelDict] ∧
    ((sampleStep cfg nbImages d s).result_dicts.drop
        s.result_dicts.length).map TileRecord.image_filename
      = ["nw", "ne", "sw", "se"].map (fun suf =>
          (generate_preprocessed_filenames cfg.image_size cfg.image_filename
            cfg.output_dir d.x d.y (some suf)).1) ∧
    (((sampleStep cfg nbImages d s).result_dicts.drop
        s.result_dicts.length).map TileRecord.image_filename).Pairwise
      (· ≠ ·) := by
  have hne : ∀ sa sb : String, sa ≠ sb →
      (generate_preprocessed_filenames cfg.image_size cfg.image_filename
        cfg.output_dir d.x d.y (some sa)).1 ≠
      (generate_preprocessed_filenames cfg.image_size cfg.image_filename
        cfg.output_dir d.x d.y (some sb)).1 :=
    fun sa sb hab heq =>
      hab (gen_image_inj_suffix cfg.image_size cfg.image_filename
        cfg.output_dir d.x d.y sa sb heq)
  unfold sampleStep
  rw [if_pos hd]
  refine ⟨by simp, rfl, ?_, ?_, ?_⟩
  · rw [List.drop_left]
    simp [serializeRecord]
  · rw [List.drop_left]
    simp [serializeRecord]
  · rw [List.drop_left]
    simp only [List.map_cons, List.map_nil, serializeRecord]
    refine List.Pairwise.cons ?_ (List.Pairwise.cons ?_
      (List.Pairwise.cons ?_ (by simp)))
    · intro b hb
      simp only [List.map_cons, List.map_nil, List.mem_cons,
        List.not_mem_nil, or_false] at hb
      rcases hb with rfl | rfl | rfl
      · exact hne "nw" "ne" (by decide)
      · exact hne "nw" "sw" (by decide)
      · exact hne "nw" "se" (by decide)
    · intro b hb
      simp only [List.map_cons, List.map_nil, List.mem_cons,
        List.not_mem_nil, or_false] at hb
      rcases hb with rfl | rfl
      · exact hne "ne" "sw" (by decide)
      · exact hne "ne" "se" (by decide)
    · intro b hb
      simp only [List.map_cons, List.map_nil, List.mem_cons,
        List.not_mem_nil, or_false] at hb
      rcases hb with rfl
      exact hne "sw" "se" (by decide)

/-- Witness for C5: one concrete non-empty draw from the initial state. -/
theorem c5_four_variants_witness :
    (0 : ℕ) < 1 ∧
    ((sampleStep ⟨4, "img.tif", "out"⟩ 10 ⟨0, 0, 1, []⟩
        initState).result_dicts.length = 0 + 4 ∧
      (sampleStep ⟨4, "img.tif", "out"⟩ 10 ⟨0, 0, 1, []⟩
        initState).image_counter = 0 + 4 ∧
      ((sampleStep ⟨4, "img.tif", "out"⟩ 10 ⟨0, 0, 1, []⟩
          initState).result_dicts.drop 0).map TileRecord.labels
        = [[], [], [], []] ∧
      ((sampleStep ⟨4, "img.tif", "out"⟩ 10 ⟨0, 0, 1, []⟩
          initState).result_dicts.drop 0).map TileRecord.image_filename
        = ["nw", "ne", "sw", "se"].map (fun suf =>
            (generate_preprocessed_filenames 4 "img.tif" "out" 0 0
              (some suf)).1) ∧
      (((sampleStep ⟨4, "img.tif", "out"⟩ 10 ⟨0, 0, 1, []⟩
          initState).result_dicts.drop 0).map
        TileRecord.image_filename).Pairwise (· ≠ ·)) :=
  ⟨by decide,
    c5_four_variants ⟨4, "img.tif", "out"⟩ 10 ⟨0, 0, 1, []⟩ initState
      (by decide)⟩

theorem mapIdx_forall_mem {α β : Type} (f : ℕ → α → β) (l : List α)
    (P : β → Prop) (h : ∀ i a, a ∈ l → P (f i a)) :
    ∀ b ∈ l.mapIdx f, P b := by
  induction l generalizing f with
  | nil => simp
  | cons a t ih =>
      intro b hb
      rw [List.mapIdx_cons] at hb
      rcases List.mem_cons.mp hb with rfl | hb'
      · exact h 0 a (List.mem_cons_self a t)
      · exact ih (fun i => f (i + 1)) (fun i x hx => h (i + 1) x (.tail _ hx))
          b hb'

theorem fillPoly_values (region : ℕ → ℕ → Bool) (mask : Mask) (lid : ℕ)
    (P : ℕ → Prop) (hm : ∀ row ∈ mask, ∀ v ∈ row, P v) (hl : P lid) :
    ∀ row ∈ fillPoly region mask lid, ∀ v ∈ row, P v := by
  unfold fillPoly
  refine mapIdx_forall_mem _ mask (fun r => ∀ v ∈ r, P v) ?_
  intro i r hr
  refine mapIdx_forall_mem _ r P ?_
  intro j v hv
  by_cases hreg : region i j
  · simpa [hreg] using hl
  · simpa [hreg] using hm r hr v hv

theorem lookupLabelId_mem_ids (labels : List Label) (c : String) (lid : ℕ)
    (h : lookupLabelId labels c = some lid) : lid ∈ labels.map Label.id := by
  unfold lookupLabelId at h
  cases hfl : (labels.filter fun l => l.name == pyLower c).map Label.id with
  | nil => rw [hfl] at h; simp at h
  | cons a t =>
      rw [hfl] at h
      simp only [List.head?_cons, Option.some.injEq] at h
      have ha : a ∈ (labels.filter fun l => l.name == pyLower c).map Label.id := by
        rw [hfl]
        exact List.mem_cons_self _ _
      obtain ⟨l, hl, hid⟩ := List.mem_map.mp ha
      exact List.mem_map.mpr ⟨l, List.mem_of_mem_filter hl, by rw [hid, h]⟩

theorem lookupLabelId_isSome (labels : List Label) (c : String)
    (h : ∃ l ∈ labels, l.name = pyLower c) :
    ∃ lid, lookupLabelId labels c = some lid := by
  obtain ⟨l, hl, hname⟩ := h
  have hmem : l ∈ labels.filter fun l' => l'.name == pyLower c :=
    List.mem_filter.mpr ⟨hl, by simp [hname]⟩
  unfold lookupLabelId
  cases hfl : labels.filter fun l' => l'.name == pyLower c with
  | nil => rw [hfl] at hmem; cases hmem
  | cons a t => exact ⟨a.id, rfl⟩

theorem lookupLabelId_eq_none (labels : List Label) (c : String)
    (h : ∀ l ∈ labels, l.name ≠ pyLower c) :
    lookupLabelId labels c = none := by
  unfold lookupLabelId
  have hfl : (labels.filter fun l' => l'.name == pyLower c) = [] := by
    rw [List.filter_eq_nil_iff]
    intro l hl
    simpa using h l hl
  rw [hfl]
  rfl

theorem load_mask_fold_ok (region : List (ℤ × ℤ) → ℕ → ℕ → Bool)
    (features : RasterFeatures) (min_x min_y : ℤ) (bl : List Building) :
    ∀ m : Mask, (∀ b ∈ bl, ∃ l ∈ tanzaniaLabels, l.name = pyLower b.condition) →
      (∀ row ∈ m, ∀ v ∈ row, v ∈ tanzaniaLabels.map Label.id) →
      ∃ mask, bl.foldl (loadMaskStep region tanzaniaLabels features min_x min_y)
          (.ok m) = .ok mask ∧
        ∀ row ∈ mask, ∀ v ∈ row, v ∈ tanzaniaLabels.map Label.id := by
  induction bl with
  | nil =>
      intro m _ hm
      exact ⟨m, rfl, hm⟩
  | cons b t ih =>
      intro m hcond hm
      obtain ⟨lid, hlid⟩ := lookupLabelId_isSome tanzaniaLabels b.condition
        (hcond b (List.mem_cons_self b t))
      have hstep : loadMaskStep region tanzaniaLabels features min_x min_y
          (.ok m) b = .ok (fillPoly
            (region (extract_points_from_polygon b.geometry features min_x min_y))
            m lid) := by
        unfold loadMaskStep
        rw [hlid]
      rw [List.foldl_cons, hstep]
      exact ih _ (fun b' hb' => hcond b' (List.mem_cons_of_mem b hb'))
        (fillPoly_values _ m lid _ hm
          (lookupLabelId_mem_ids tanzaniaLabels b.condition lid hlid))

/-- C8: For every `ClippedLabelSet` input whose conditions all match
registry label names, `load_mask` succeeds and every value in the returned
mask is a valid label id of the registry, i.e. one of `{0, 1, 2, 3}`; and
when the input set is empty the returned mask is the all-background
`image_size × image_size` zero mask. -/
theorem c8_mask_values (region : List (ℤ × ℤ) → ℕ → ℕ → Bool) (size : ℕ)
    (buildings : List Building) (features : RasterFeatures) (min_x min_y : ℤ)
    (h : ∀ b ∈ buildings, ∃ l ∈ tanzaniaLabels, l.name = pyLower b.condition) :
    tanzaniaLabels.map Label.id = [0, 1, 2, 3] ∧
    ∃ mask, load_mask region tanzaniaLabels size buildings features min_x min_y
        = .ok mask ∧
      (∀ row ∈ mask, ∀ v ∈ row, v ∈ ([0, 1, 2, 3] : List ℕ)) ∧
      (buildings = [] → mask = List.replicate size (List.replicate size 0)) := by
  refine ⟨rfl, ?_⟩
  have hzero : ∀ row ∈ zeroMask size, ∀ v ∈ row,
      v ∈ tanzaniaLabels.map Label.id := by
    intro row hrow v hv
    have hrow0 : row = List.replicate size 0 :=
      List.eq_of_mem_replicate hrow
    have hv0 : v = 0 := List.eq_of_mem_replicate (hrow0 ▸ hv)
    subst hv0
    exact List.mem_map.mpr ⟨⟨0, "background", (0, 0, 0), true⟩,
      List.mem_cons_self _ _, rfl⟩
  obtain ⟨mask, hfold, hval⟩ := load_mask_fold_ok region features min_x min_y
    buildings (zeroMask size) h hzero
  refine ⟨mask, hfold, fun row hrow v hv => hval row hrow v hv, ?_⟩
  intro hempty
  subst hempty
  simp only [List.foldl_nil, Except.ok.injEq] at hfold
  rw [← hfold]
  rfl

/-- Witness for C8 with one `Complete` building on a `2 × 2` tile and a
fill region covering everything. -/
theorem c8_mask_values_witness :
    (∀ b ∈ [(⟨"Complete", [(0, 0), (1, 0), (1, 1)]⟩ : Building)],
      ∃ l ∈ tanzaniaLabels, l.name = pyLower b.condition) ∧
    (tanzaniaLabels.map Label.id = [0, 1, 2, 3] ∧
    ∃ mask, load_mask (fun _ _ _ => true) tanzaniaLabels 2
        [⟨"Complete", [(0, 0), (1, 0), (1, 1)]⟩] ⟨0, 0, 1, 1, 32737, 2, 2⟩ 0 0
        = .ok mask ∧
      (∀ row ∈ mask, ∀ v ∈ row, v ∈ ([0, 1, 2, 3] : List ℕ)) ∧
      ([(⟨"Complete", [(0, 0), (1, 0), (1, 1)]⟩ : Building)] = [] →
        mask = List.replicate 2 (List.replicate 2 0))) :=
  ⟨by decide,
    c8_mask_values (fun _ _ _ => true) 2
      [⟨"Complete", [(0, 0), (1, 0), (1, 1)]⟩] ⟨0, 0, 1, 1, 32737, 2, 2⟩ 0 0
      (by decide)⟩

theorem load_mask_fold_error (region : List (ℤ × ℤ) → ℕ → ℕ → Bool)
    (features : RasterFeatures) (min_x min_y : ℤ) (bl : List Building)
    (e : PyError) :
    bl.foldl (loadMaskStep region tanzaniaLabels features min_x min_y)
      (.error e) = .error e := by
  induction bl with
  | nil => rfl
  | cons b t ih => exact ih

/-- C10: For every building set passed to `load_mask`, if some row's
condition, lowercased, equals no label name in the registry, `load_mask`
fails with an index-out-of-range error (the `[0]` lookup on an empty list
comprehension) rather than skipping that polygon or returning a mask. -/
theorem c10_unknown_condition (region : List (ℤ × ℤ) → ℕ → ℕ → Bool)
    (size : ℕ) (buildings : List Building) (features : RasterFeatures)
    (min_x min_y : ℤ)
    (h : ∃ b ∈ buildings, ∀ l ∈ tanzaniaLabels, l.name ≠ pyLower b.condition) :
    load_mask region tanzaniaLabels size buildings features min_x min_y
      = .error .indexError := by
  unfold load_mask
  have key : ∀ bl : List Building, ∀ m : Mask,
      (∃ b ∈ bl, ∀ l ∈ tanzaniaLabels, l.name ≠ pyLower b.condition) →
      bl.foldl (loadMaskStep region tanzaniaLabels features min_x min_y)
        (.ok m) = .error .indexError := by
    intro bl
    induction bl with
    | nil =>
        rintro m ⟨b0, hb0, _⟩
        cases hb0
    | cons b t ih =>
        rintro m ⟨b0, hb0, hbad⟩
        rcases List.mem_cons.mp hb0 with heq | hmem'
        · have hnone : lookupLabelId tanzaniaLabels b.condition = none :=
            lookupLabelId_eq_none tanzaniaLabels b.condition (heq ▸ hbad)
          have hstep : loadMaskStep region tanzaniaLabels features min_x min_y
              (.ok m) b = .error .indexError := by
            unfold loadMaskStep
            rw [hnone]
          rw [List.foldl_cons, hstep]
          exact load_mask_fold_error region features min_x min_y t .indexError
        · rw [List.foldl_cons]
          cases hlk : lookupLabelId tanzaniaLabels b.condition with
          | none =>
              have hstep : loadMaskStep region tanzaniaLabels features
                  min_x min_y (.ok m) b = .error .indexError := by
                unfold loadMaskStep
                rw [hlk]
              rw [hstep]
              exact load_mask_fold_error region features min_x min_y t
                .indexError
          | some lid =>
              have hstep : loadMaskStep region tanzaniaLabels features
                  min_x min_y (.ok m) b = .ok (fillPoly
                    (region (extract_points_from_polygon b.geometry features
                      min_x min_y)) m lid) := by
                unfold loadMaskStep
                rw [hlk]
              rw [hstep]
              exact ih _ ⟨b0, hmem', hbad⟩
  exact key buildings (zeroMask size) h

/-- Witness for C10: a building whose condition `Weird` matches no registry
label name. -/
theorem c10_unknown_condition_witness :
    (∃ b ∈ [(⟨"Weird", []⟩ : Building)],
      ∀ l ∈ tanzaniaLabels, l.name ≠ pyLower b.condition) ∧
    load_mask (fun _ _ _ => true) tanzaniaLabels 2 [⟨"Weird", []⟩]
      ⟨0, 0, 1, 1, 32737, 2, 2⟩ 0 0 = .error .indexError :=
  ⟨by decide,
    c10_unknown_condition (fun _ _ _ => true) 2 [⟨"Weird", []⟩]
      ⟨0, 0, 1, 1, 32737, 2, 2⟩ 0 0 (by decide)⟩

theorem pyReplaceFuel_nil (p r : List Char) (fuel : ℕ) :
    pyReplaceFuel p r fuel [] = [] := by
  cases fuel <;> rfl

theorem pyReplaceFuel_cons (p r : List Char) (fuel : ℕ) (c : Char)
    (s : List Char) :
    pyReplaceFuel p r (fuel + 1) (c :: s) =
      if p ≠ [] ∧ p.isPrefixOf (c :: s) then
        r ++ pyReplaceFuel p r fuel ((c :: s).drop p.length)
      else c :: pyReplaceFuel p r fuel s := rfl

theorem pyReplaceFuel_fuel_eq (p r : List Char) :
    ∀ fuel₁ fuel₂ s, s.length ≤ fuel₁ → s.length ≤ fuel₂ →
      pyReplaceFuel p r fuel₁ s = pyReplaceFuel p r fuel₂ s := by
  intro fuel₁
  induction fuel₁ with
  | zero =>
      intro fuel₂ s h1 _
      have : s = [] := List.eq_nil_of_length_eq_zero (Nat.le_zero.mp h1)
      subst this
      rw [pyReplaceFuel_nil, pyReplaceFuel_nil]
  | succ f ih =>
      intro fuel₂ s h1 h2
      cases s with
      | nil => rw [pyReplaceFuel_nil, pyReplaceFuel_nil]
      | cons c t =>
          cases fuel₂ with
          | zero => simp at h2
          | succ g =>
              rw [pyReplaceFuel_cons, pyReplaceFuel_cons]
              split_ifs with h
              · have hp : 1 ≤ p.length := List.length_pos.mpr h.1
                have hd : ((c :: t).drop p.length).length ≤ t.length := by
                  simp only [List.length_drop, List.length_cons]
                  omega
                exact congrArg (r ++ ·)
                  (ih g _ (by simp at h1; omega) (by simp at h2; omega))
              · exact congrArg (c :: ·)
                  (ih g t (by simpa using h1) (by simpa using h2))

theorem pyReplace_fuel (p r s : List Char) (fuel : ℕ) (h : s.length ≤ fuel) :
    pyReplace p r s = pyReplaceFuel p r fuel s :=
  pyReplaceFuel_fuel_eq p r s.length fuel s le_rfl h

theorem pyReplace_cons_no_match (p r : List Char) (c : Char) (s : List Char)
    (h : ¬ p.isPrefixOf (c :: s)) :
    pyReplace p r (c :: s) = c :: pyReplace p r s := by
  unfold pyReplace
  simp only [List.length_cons]
  rw [pyReplaceFuel_cons, if_neg (by tauto)]

theorem pyReplace_head_match (p r s : List Char) (hp : p ≠ []) :
    pyReplace p r (p ++ s) = r ++ pyReplace p r s := by
  cases p with
  | nil => exact absurd rfl hp
  | cons pc pt =>
      unfold pyReplace
      simp only [List.cons_append, List.length_cons, List.length_append]
      rw [pyReplaceFuel_cons]
      have hpre : (pc :: pt).isPrefixOf (pc :: (pt ++ s)) = true := by
        rw [ List.isPrefixOf_iff_prefix, ← List.cons_append]
        exact List.prefix_append _ _
      rw [if_pos ⟨List.cons_ne_nil pc pt, hpre⟩]
      have hdrop : (pc :: (pt ++ s)).drop (pc :: pt).length = s := by
        rw [← List.cons_append, List.drop_left]
      rw [hdrop]
      exact congrArg (r ++ ·)
        (pyReplaceFuel_fuel_eq (pc :: pt) r (pt.length + s.length) s.length s
          (by omega) le_rfl)

theorem pyReplace_no_occurrence (p r : List Char) (hp : p ≠ []) :
    ∀ s, (∀ i, ¬ p.isPrefixOf (s.drop i)) → pyReplace p r s = s := by
  intro s
  induction s with
  | nil => intro _; rfl
  | cons c t ih =>
      intro h
      rw [pyReplace_cons_no_match p r c t (by simpa using h 0)]
      rw [ih fun i => by simpa using h (i + 1)]

theorem pyReplace_prepend (p r : List Char) :
    ∀ a s, (∀ i, i < a.length → ¬ p.isPrefixOf ((a ++ s).drop i)) →
      pyReplace p r (a ++ s) = a ++ pyReplace p r s := by
  intro a
  induction a with
  | nil => intro s _; simp
  | cons c a' ih =>
      intro s h
      rw [List.cons_append]
      rw [pyReplace_cons_no_match p r c (a' ++ s) (by
        have := h 0 (by simp)
        simpa using this)]
      rw [ih s fun i hi => by
        have := h (i + 1) (by simpa using Nat.succ_lt_succ hi)
        simpa using this]
      rfl

theorem not_isPrefixOf_drop_of_containsSub (s p : List Char) (hp : p ≠ [])
    (h : containsSub s p = false) : ∀ i, ¬ p.isPrefixOf (s.drop i) := by
  intro i hpf
  by_cases hi : i ≤ s.length
  · unfold containsSub at h
    rw [List.any_eq_false] at h
    exact h i (List.mem_range.mpr (by omega)) hpf
  · rw [List.drop_eq_nil_of_le (by omega)] at hpf
    cases p with
    | nil => exact hp rfl
    | cons a l => simp [List.isPrefixOf] at hpf

theorem no_early_match (odir p B : List Char) (hslash : '/' ∉ p)
    (hodir : ∀ i, ¬ p.isPrefixOf (odir.drop i)) :
    ∀ i, i < (odir ++ ['/']).length →
      ¬ p.isPrefixOf ((odir ++ ['/'] ++ (p ++ B)).drop i) := by
  intro i hi hpf
  rw [ List.isPrefixOf_iff_prefix] at hpf
  have hi' : i < odir.length + 1 := by simpa using hi
  by_cases hc : i + p.length ≤ odir.length
  · apply hodir i
    rw [ List.isPrefixOf_iff_prefix]
    have htake := List.prefix_iff_eq_take.mp hpf
    have hdropL : (odir ++ ['/'] ++ (p ++ B)).drop i
        = odir.drop i ++ (['/'] ++ (p ++ B)) := by
      rw [List.append_assoc, List.drop_append_eq_append_drop,
        show i - odir.length = 0 by omega, List.drop_zero]
    have heq : p = (odir.drop i).take p.length := by
      conv_lhs => rw [htake]
      rw [hdropL, List.take_append_eq_append_take,
        show p.length - (odir.drop i).length = 0 by
          simp only [List.length_drop]; omega,
        List.take_zero, List.append_nil]
    exact List.prefix_iff_eq_take.mpr heq
  · obtain ⟨t, ht⟩ := hpf
    have hkp : odir.length - i < p.length := by omega
    have h1 : p[odir.length - i]? = (p ++ t)[odir.length - i]? := by
      rw [List.getElem?_append, if_pos hkp]
    have h2 : (p ++ t)[odir.length - i]?
        = ((odir ++ ['/'] ++ (p ++ B)).drop i)[odir.length - i]? := by
      rw [ht]
    have h3 : ((odir ++ ['/'] ++ (p ++ B)).drop i)[odir.length - i]?
        = (odir ++ ['/'] ++ (p ++ B))[i + (odir.length - i)]? :=
      List.getElem?_drop _ i _
    have h4 : (odir ++ ['/'] ++ (p ++ B))[i + (odir.length - i)]?
        = some '/' := by
      rw [show i + (odir.length - i) = odir.length by omega,
        List.append_assoc, List.getElem?_append_right (le_refl odir.length)]
      simp
    have hfin : p[odir.length - i]? = some '/' := by rw [h1, h2, h3, h4]
    exact hslash (List.getElem?_mem hfin)

theorem pyBasename_no_slash (f : String) :
    ∀ c ∈ (pyBasename f).data, c ≠ '/' := by
  intro c hc
  unfold pyBasename at hc
  simp only [List.mem_reverse] at hc
  have := List.mem_takeWhile_imp hc
  simpa using this

theorem pySplitextFst_sub (s : String) :
    ∀ c ∈ (pySplitextFst s).data, c ∈ s.data := by
  intro c hc
  unfold pySplitextFst at hc
  split_ifs at hc with h1 h2
  · exact hc
  · simp only [List.mem_reverse] at hc
    have := List.mem_of_mem_drop hc
    rwa [List.mem_reverse] at this
  · exact hc

theorem new_filename_data_cons (size : ℕ) (f : String) (x y : ℕ)
    (s : Option String) :
    (new_filename size f x y s).data =
      (pySplitextFst (pyBasename f)).data
        ++ '_' :: ((img_id_str size x y s).data ++ ".png".data) := by
  rw [new_filename]
  simp only [str_data_append, List.append_assoc]
  rfl

theorem new_filename_head_ne_slash (size : ℕ) (f : String) (x y : ℕ)
    (s : Option String) :
    (new_filename size f x y s).data.head? ≠ some '/' := by
  rw [new_filename_data_cons]
  cases hstem : (pySplitextFst (pyBasename f)).data with
  | nil => simp
  | cons c t =>
      simp only [List.cons_append, List.head?_cons, ne_eq, Option.some.injEq]
      intro hcs
      have hmem : c ∈ (pySplitextFst (pyBasename f)).data := by
        rw [hstem]
        exact List.mem_cons_self _ _
      exact pyBasename_no_slash f c (pySplitextFst_sub (pyBasename f) c hmem)
        hcs

theorem pyJoin_no_slash (a b : String) (hb : b.data.head? ≠ some '/')
    (ha1 : a.data ≠ []) (ha2 : a.data.getLast? ≠ some '/') :
    pyJoin a b = ⟨a.data ++ '/' :: b.data⟩ := by
  unfold pyJoin
  rw [if_neg hb, if_neg ha1, if_neg ha2]

theorem gen_image_data (size : ℕ) (f odir : String) (x y : ℕ)
    (suffix : Option String)
    (h1 : odir.data ≠ []) (h2 : odir.data.getLast? ≠ some '/') :
    (generate_preprocessed_filenames size f odir x y suffix).1.data =
      odir.data ++ ['/'] ++ ("images".data
        ++ '/' :: (new_filename size f x y suffix).data) := by
  show (pyJoin (pyJoin odir "images") (new_filename size f x y suffix)).data
    = _
  rw [pyJoin_no_slash odir "images" (by decide) h1 h2]
  rw [pyJoin_no_slash _ _ (new_filename_head_ne_slash size f x y suffix)
    (by simp) (by
      show (odir.data ++ '/' :: "images".data).getLast? ≠ some '/'
      rw [List.getLast?_append,
        show ('/' :: ("images" : String).data).getLast? = some 's' from rfl]
      simp)]
  simp [List.append_assoc]

/-- C9 counterexample: the claim says the label path differs from the image
path only in the `images` folder segment, every other part (the original
basename included) being unchanged; but `str.replace` rewrites every
occurrence of `"images"`, so for the raw image `images_1.tif` the basename
itself is rewritten and the label path is
`out/labels/labels_1_384_384_0_0.png`, not
`out/labels/images_1_384_384_0_0.png`. -/
theorem c9_counterexample :
    (generate_preprocessed_filenames 384 "images_1.tif" "out" 0 0 none).1
      = "out/images/images_1_384_384_0_0.png" ∧
    (generate_preprocessed_filenames 384 "images_1.tif" "out" 0 0 none).2
      = "out/labels/labels_1_384_384_0_0.png" ∧
    (generate_preprocessed_filenames 384 "images_1.tif" "out" 0 0 none).2
      ≠ "out/labels/images_1_384_384_0_0.png" := by
  refine ⟨?_, ?_, ?_⟩ <;> decide

/-- C9 amended: for every serialized tile the image path is
`join(output_dir, "images", <basename>_<size>_<size>_<x>_<y>[_<suffix>].png)`
and the label path is the image path with every occurrence of the substring
`images` replaced by `labels` — occurrences inside `output_dir` or the
generated filename are rewritten as well; when `output_dir` is nonempty,
does not end in `/`, and `images` occurs neither in `output_dir` nor in the
generated filename, the replacement only renames the folder segment and the
paths are `<output_dir>/images/<file>` and `<output_dir>/labels/<file>`. -/
theorem c9_amended_paths (size : ℕ) (f odir : String) (x y : ℕ)
    (suffix : Option String)
    (h1 : odir.data ≠ []) (h2 : odir.data.getLast? ≠ some '/')
    (h3 : containsSub odir.data "images".data = false)
    (h4 : containsSub (new_filename size f x y suffix).data "images".data
      = false) :
    (generate_preprocessed_filenames size f odir x y suffix).2
      = pyReplaceStr
          (generate_preprocessed_filenames size f odir x y suffix).1
          "images" "labels" ∧
    (generate_preprocessed_filenames size f odir x y suffix).1
      = ⟨odir.data ++ "/images/".data
          ++ (new_filename size f x y suffix).data⟩ ∧
    (generate_preprocessed_filenames size f odir x y suffix).2
      = ⟨odir.data ++ "/labels/".data
          ++ (new_filename size f x y suffix).data⟩ := by
  have himg := gen_image_data size f odir x y suffix h1 h2
  refine ⟨rfl, ?_, ?_⟩
  · apply String.ext
    rw [himg,
      show ("/images/" : String).data = '/' :: ("images".data ++ ['/'])
        from rfl]
    simp [List.append_assoc]
  · apply String.ext
    show pyReplace ("images" : String).data ("labels" : String).data
      (generate_preprocessed_filenames size f odir x y suffix).1.data = _
    rw [himg]
    have hodir := not_isPrefixOf_drop_of_containsSub odir.data "images".data
      (by decide) h3
    have hfn := not_isPrefixOf_drop_of_containsSub
      (new_filename size f x y suffix).data "images".data (by decide) h4
    have hB : ∀ i, ¬ ("images" : String).data.isPrefixOf
        (('/' :: (new_filename size f x y suffix).data).drop i) := by
      intro i
      match i with
      | 0 =>
          intro hpf
          rw [List.drop_zero, List.isPrefixOf_iff_prefix,
            show ("images" : String).data = 'i' :: "mages".data from rfl]
            at hpf
          exact absurd (List.cons_prefix_cons.mp hpf).1 (by decide)
      | j + 1 =>
          intro hpf
          exact hfn j (by simpa using hpf)
    rw [pyReplace_prepend "images".data "labels".data (odir.data ++ ['/'])
      ("images".data ++ '/' :: (new_filename size f x y suffix).data)
      (no_early_match odir.data "images".data
        ('/' :: (new_filename size f x y suffix).data) (by decide) hodir)]
    rw [pyReplace_head_match "images".data "labels".data
      ('/' :: (new_filename size f x y suffix).data) (by decide)]
    rw [pyReplace_no_occurrence "images".data "labels".data (by decide)
      ('/' :: (new_filename size f x y suffix).data) hB]
    rw [show ("/labels/" : String).data = '/' :: ("labels".data ++ ['/'])
      from rfl]
    simp [List.append_assoc]

/-- Witness for C9 amended: output directory `out` and raw image
`tile_1.tif`, neither containing the substring `images`. -/
theorem c9_amended_paths_witness :
    (("out" : String).data ≠ [] ∧
     ("out" : String).data.getLast? ≠ some '/' ∧
     containsSub ("out" : String).data "images".data = false ∧
     containsSub (new_filename 384 "tile_1.tif" 2 3 (some "nw")).data
       "images".data = false) ∧
    (generate_preprocessed_filenames 384 "tile_1.tif" "out" 2 3
        (some "nw")).2
      = ⟨("out" : String).data ++ "/labels/".data
          ++ (new_filename 384 "tile_1.tif" 2 3 (some "nw")).data⟩ :=
  ⟨⟨by decide, by decide, by decide, by decide⟩,
    (c9_amended_paths 384 "tile_1.tif" "out" 2 3 (some "nw") (by decide)
      (by decide) (by decide) (by decide)).2.2⟩

end Tanzania
